import Mathlib

/-!
URL shortener (`main.go`): a shallow embedding and its contract.

The program is a set of HTTP route handlers over one SQLite file with two
tables, `users` and `urls`, and a cookie session holding at most the
attribute `user`.

Modelling decisions.

* Go strings are Lean `String`s; `==` on Go strings and `=` on SQLite `TEXT`
  (binary collation) are both equality of the character sequence.
* A table is the list of its rows in rowid order together with the
  `AUTOINCREMENT` counter; a table that does not exist is `none`.
* Each SQL statement of the source is one function on `DB`; a statement
  fails with "no such table" or with a `UNIQUE` violation, an `INSERT` also
  with "database or disk is full" once the table has used the largest signed
  64-bit rowid, and a `QueryRow` scan with `sql.ErrNoRows`.  Failures of the
  disk itself (no space, I/O errors) are not modelled.
* A request is taken as already matched to its route; static files and the
  template engine are outside the model, a rendered page is the template name
  with the values bound to it.
* A handler is a function of the request inputs, the database and the
  caller's session value; it returns the response, the new database and the
  new session value.  Randomness (the 16 bytes behind `uuid.New()`) and the
  request's base URL are explicit inputs.
-/

namespace UrlShortener

/-! ## Data model -/

/-- Row of `users (id, username UNIQUE, password)`. -/
structure UserRow where
  id : Nat
  username : String
  password : String
deriving DecidableEq, Repr

/-- Row of `urls (id, short_id UNIQUE, original_url, username)`. -/
structure UrlRow where
  id : Nat
  short_id : String
  original_url : String
  username : String
deriving DecidableEq, Repr

/-- Table contents in rowid order, with the `sqlite_sequence` counter kept for
an `INTEGER PRIMARY KEY AUTOINCREMENT` column. -/
structure Table (α : Type) where
  rows : List α
  seq : Nat
deriving DecidableEq, Repr

/-- The database file `./data.db`: each table is absent or present. -/
structure DB where
  users : Option (Table UserRow)
  urls : Option (Table UrlRow)
deriving DecidableEq, Repr

/-- Errors returned by `database/sql` for the statements of this program. -/
inductive SqlError where
  | noSuchTable (name : String)
  | uniqueFailed (column : String)
  | full
  | errNoRows
deriving DecidableEq, Repr

/-- Text of `err.Error()`. -/
def SqlError.Error : SqlError → String
  | .noSuchTable name => "no such table: " ++ name
  | .uniqueFailed column => "UNIQUE constraint failed: " ++ column
  | .full => "database or disk is full"
  | .errNoRows => "sql: no rows in result set"

/-- The session attribute `user`: `sess.Get("user")` is `nil` or the name. -/
abbrev Session := Option String

/-- Values bound in a `fiber.Map` handed to the template engine. -/
inductive Value where
  | null
  | text (s : String)
  | links (l : List (String × String))
deriving DecidableEq, Repr

/-- What a handler sends back. -/
inductive Response where
  | sendString (status : Nat) (body : String)
  | redirect (location : String)
  | render (template : String) (data : List (String × Value))
  | panicked
deriving DecidableEq, Repr

def StatusBadRequest : Nat := 400
def StatusUnauthorized : Nat := 401
def StatusNotFound : Nat := 404
def StatusInternalServerError : Nat := 500

/-- Result of one handler call. -/
structure Outcome where
  resp : Response
  db : DB
  sess : Session
deriving DecidableEq, Repr

/-! ## SQL statements of the source -/

/-- Rowid chosen by `AUTOINCREMENT`: one more than the largest rowid the table
has ever held. -/
def nextRowid (ids : List Nat) (seq : Nat) : Nat :=
  max seq (ids.foldl max 0) + 1

/-- Largest rowid, 2^63 - 1: rowids are signed 64-bit integers, and an
`AUTOINCREMENT` table that has held this rowid takes no further row. -/
def maxRowid : Nat := 9223372036854775807

/-- `DROP TABLE IF EXISTS urls` (line 26). -/
def execDropUrls (db : DB) : Except SqlError DB :=
  .ok { db with urls := none }

/-- `CREATE TABLE IF NOT EXISTS users (...)` (lines 31-35, 44). -/
def execCreateUsersTable (db : DB) : Except SqlError DB :=
  match db.users with
  | some _ => .ok db
  | none => .ok { db with users := some ⟨[], 0⟩ }

/-- `CREATE TABLE IF NOT EXISTS urls (...)` (lines 37-42, 49). -/
def execCreateUrlsTable (db : DB) : Except SqlError DB :=
  match db.urls with
  | some _ => .ok db
  | none => .ok { db with urls := some ⟨[], 0⟩ }

/-- `INSERT INTO users (username, password) VALUES (?, ?)` (line 113): the
rowid is allocated first, then `UNIQUE(username)` is checked. -/
def execInsertUser (db : DB) (username password : String) : Except SqlError DB :=
  match db.users with
  | none => .error (.noSuchTable "users")
  | some t =>
    let id := nextRowid (t.rows.map (fun r => r.id)) t.seq
    if maxRowid < id then
      .error .full
    else if t.rows.any (fun r => r.username == username) then
      .error (.uniqueFailed "users.username")
    else
      .ok { db with users := some ⟨t.rows ++ [⟨id, username, password⟩], id⟩ }

/-- `SELECT password FROM users WHERE username = ?` through `QueryRow(..).Scan`
(line 130): the first matching row, or `sql.ErrNoRows`. -/
def queryPassword (db : DB) (username : String) : Except SqlError String :=
  match db.users with
  | none => .error (.noSuchTable "users")
  | some t =>
    match t.rows.find? (fun r => r.username == username) with
    | none => .error .errNoRows
    | some r => .ok r.password

/-- `INSERT INTO urls (short_id, original_url, username) VALUES (?, ?, ?)`
(line 165): the rowid is allocated first, then `UNIQUE(short_id)` is checked. -/
def execInsertUrl (db : DB) (shortID originalURL user : String) : Except SqlError DB :=
  match db.urls with
  | none => .error (.noSuchTable "urls")
  | some t =>
    let id := nextRowid (t.rows.map (fun r => r.id)) t.seq
    if maxRowid < id then
      .error .full
    else if t.rows.any (fun r => r.short_id == shortID) then
      .error (.uniqueFailed "urls.short_id")
    else
      .ok { db with urls := some ⟨t.rows ++ [⟨id, shortID, originalURL, user⟩], id⟩ }

/-- `SELECT original_url FROM urls WHERE short_id = ?` through
`QueryRow(..).Scan` (line 181). -/
def queryOriginalUrl (db : DB) (id : String) : Except SqlError String :=
  match db.urls with
  | none => .error (.noSuchTable "urls")
  | some t =>
    match t.rows.find? (fun r => r.short_id == id) with
    | none => .error .errNoRows
    | some r => .ok r.original_url

/-- `SELECT short_id, original_url FROM urls WHERE username = ?` with the
`rows.Next()` loop that collects the pairs (lines 74-89). -/
def queryUrlsOf (db : DB) (user : String) : Except SqlError (List (String × String)) :=
  match db.urls with
  | none => .error (.noSuchTable "urls")
  | some t =>
    .ok ((t.rows.filter (fun r => r.username == user)).map
      (fun r => (r.short_id, r.original_url)))

/-! ## Startup -/

/-- `initDB` (lines 18-53): drop `urls`, create `users` if absent, create
`urls`; an error of any statement ends the process (`log.Fatal`). -/
def initDB (prior : DB) : Except SqlError DB := do
  let db ← execDropUrls prior
  let db ← execCreateUsersTable db
  let db ← execCreateUrlsTable db
  pure db

/-! ## Short identifiers -/

/-- Sixteen bytes, the `[16]byte` behind a `uuid.UUID`; an entry is read
modulo 256. -/
structure UUID where
  bytes : List Nat
  size : bytes.length = 16
deriving DecidableEq, Repr

/-- Modelled from the spec: the hex encoder used by the identifier library is
not part of the sources. The sixteen lower-case hex digits. -/
def hextable : List Char := "0123456789abcdef".data

/-- Modelled from the spec: the hex encoder used by the identifier library is
not part of the sources. Lower-case hex digit of a nibble. -/
def hexChar (n : Nat) : Char := hextable.getD n '0'

/-- Modelled from the spec: the hex encoder used by the identifier library is
not part of the sources. Two digits per byte, high nibble first. -/
def hexEncode (src : List Nat) : List Char :=
  src.flatMap (fun v => [hexChar (v % 256 / 16), hexChar (v % 16)])

/-- Modelled from the spec: the identifier library behind `uuid.New()` is not
part of the sources. A version-4 random identifier: sixteen random bytes with
the version nibble of byte 6 set to 4 and the top bits of byte 8 set to 10. -/
def UUID.New (rnd : UUID) : UUID :=
  ⟨(rnd.bytes.set 6 (rnd.bytes.getD 6 0 % 16 + 64)).set 8 (rnd.bytes.getD 8 0 % 64 + 128),
    by simp [rnd.size]⟩

/-- Modelled from the spec: the identifier library behind `.String()` is not
part of the sources. The canonical rendering of an identifier, 36 characters
in groups of 8-4-4-4-12 hex digits separated by `-`. -/
def UUID.String (u : UUID) : String :=
  String.mk (hexEncode (u.bytes.take 4) ++ '-' ::
    hexEncode ((u.bytes.drop 4).take 2) ++ '-' ::
    hexEncode ((u.bytes.drop 6).take 2) ++ '-' ::
    hexEncode ((u.bytes.drop 8).take 2) ++ '-' ::
    hexEncode (u.bytes.drop 10))

/-- Go's `s[:n]`: the slice expression panics when `n` exceeds the length.
Indices count bytes; on the ASCII strings sliced here they are characters. -/
def sliceTo (s : String) (n : Nat) : Option String :=
  if n ≤ s.length then some (String.mk (s.data.take n)) else none

/-- `uuid.New().String()[:8]` (line 164). -/
def newShortID (rnd : UUID) : Option String :=
  sliceTo (UUID.New rnd).String 8

/-! ## Route handlers -/

/-- `GET /` (lines 68-99): the caller's links when a user is logged in. -/
def getIndex (db : DB) (sess : Session) : Outcome :=
  match sess with
  | none => ⟨.render "index" [("User", .null), ("URLs", .links [])], db, sess⟩
  | some user =>
    match queryUrlsOf db user with
    | .error err =>
      ⟨.sendString StatusInternalServerError ("Could not retrieve URLs: " ++ err.Error), db, sess⟩
    | .ok urls => ⟨.render "index" [("User", .text user), ("URLs", .links urls)], db, sess⟩

/-- `GET /register` (lines 101-103). -/
def getRegister (db : DB) (sess : Session) : Outcome :=
  ⟨.render "register" [], db, sess⟩

/-- `POST /register` (lines 105-119). -/
def postRegister (db : DB) (sess : Session) (username password : String) : Outcome :=
  if username = "" ∨ password = "" then
    ⟨.sendString StatusBadRequest "Username and Password are required", db, sess⟩
  else
    match execInsertUser db username password with
    | .error err =>
      ⟨.sendString StatusInternalServerError ("Could not register user: " ++ err.Error), db, sess⟩
    | .ok db1 => ⟨.redirect "/login", db1, sess⟩

/-- `GET /login` (lines 121-123). -/
def getLogin (db : DB) (sess : Session) : Outcome :=
  ⟨.render "login" [], db, sess⟩

/-- `POST /login` (lines 125-144). -/
def postLogin (db : DB) (sess : Session) (username password : String) : Outcome :=
  match queryPassword db username with
  | .error _ => ⟨.sendString StatusUnauthorized "Invalid credentials", db, sess⟩
  | .ok storedPassword =>
    if storedPassword ≠ password then
      ⟨.sendString StatusUnauthorized "Invalid credentials", db, sess⟩
    else
      ⟨.redirect "/", db, some username⟩

/-- `GET /logout` (lines 146-150): `sess.Destroy()`. -/
def getLogout (db : DB) (_sess : Session) : Outcome :=
  ⟨.redirect "/", db, none⟩

/-- `POST /shorten` (lines 152-175). -/
def postShorten (db : DB) (sess : Session) (originalURL : String) (rnd : UUID)
    (baseURL : String) : Outcome :=
  if originalURL = "" then
    ⟨.sendString StatusBadRequest "URL is required", db, sess⟩
  else
    match sess with
    | none =>
      ⟨.sendString StatusUnauthorized "You must be logged in to shorten a URL", db, sess⟩
    | some user =>
      match newShortID rnd with
      | none => ⟨.panicked, db, sess⟩
      | some shortID =>
        match execInsertUrl db shortID originalURL user with
        | .error err =>
          ⟨.sendString StatusInternalServerError ("Could not shorten URL: " ++ err.Error),
            db, sess⟩
        | .ok db1 =>
          ⟨.render "index" [("ShortURL", .text (baseURL ++ "/" ++ shortID)),
            ("User", .text user)], db1, sess⟩

/-- `GET /:id` (lines 177-187). -/
def getId (db : DB) (sess : Session) (id : String) : Outcome :=
  match queryOriginalUrl db id with
  | .error _ => ⟨.sendString StatusNotFound "URL not found", db, sess⟩
  | .ok originalURL => ⟨.redirect originalURL, db, sess⟩

/-! ## The running application -/

/-- One request, already matched to its route. -/
inductive Request where
  | getIndex
  | getRegister
  | postRegister (username password : String)
  | getLogin
  | postLogin (username password : String)
  | getLogout
  | postShorten (url : String) (rnd : UUID) (baseURL : String)
  | getId (id : String)
deriving DecidableEq, Repr

/-- Dispatch of a request to its handler. -/
def handle (req : Request) (db : DB) (sess : Session) : Outcome :=
  match req with
  | .getIndex => getIndex db sess
  | .getRegister => getRegister db sess
  | .postRegister username password => postRegister db sess username password
  | .getLogin => getLogin db sess
  | .postLogin username password => postLogin db sess username password
  | .getLogout => getLogout db sess
  | .postShorten url rnd baseURL => postShorten db sess url rnd baseURL
  | .getId id => getId db sess id

/-- The process: the database handle and the in-memory session store, keyed
by the client's session cookie. -/
structure App where
  db : DB
  sessions : Nat → Session

/-- Serving one request of one client. -/
def App.step (a : App) (client : Nat) (req : Request) : App :=
  let o := handle req a.db (a.sessions client)
  ⟨o.db, Function.update a.sessions client o.sess⟩

/-- `main` up to `app.Listen`: `initDB` on the file found on disk, then an
empty session store; no application when `initDB` ends the process. -/
def boot (prior : DB) : Option App :=
  match initDB prior with
  | .ok db => some ⟨db, fun _ => none⟩
  | .error _ => none

/-- The disk before the first start: `data.db` holds no table. -/
def emptyDisk : DB := ⟨none, none⟩

/-- States of the application over its whole life: first start on an empty
disk, requests, and restarts on the file left behind. -/
inductive Reachable : App → Prop where
  | start (a : App) : boot emptyDisk = some a → Reachable a
  | restart (a b : App) : Reachable a → boot a.db = some b → Reachable b
  | step (a : App) (client : Nat) (req : Request) : Reachable a → Reachable (a.step client req)

/-- Serving a sequence of requests. -/
def run (a : App) : List (Nat × Request) → App
  | [] => a
  | (client, req) :: rest => run (a.step client req) rest

/-- The short id a request hands out: that of a `POST /shorten` answered with
the rendered short URL. -/
def issuedBy (req : Request) (db : DB) (sess : Session) : List String :=
  match req with
  | .postShorten url rnd baseURL =>
    match (postShorten db sess url rnd baseURL).resp with
    | .render _ _ => (newShortID rnd).toList
    | _ => []
  | _ => []

/-- Short ids handed out during a run. -/
def issued (a : App) : List (Nat × Request) → List String
  | [] => []
  | (client, req) :: rest =>
    issuedBy req a.db (a.sessions client) ++ issued (a.step client req) rest

/-! ## Schema constraints as predicates -/

/-- Rows of the `users` table (none when the table is absent). -/
def DB.userRows (db : DB) : List UserRow :=
  match db.users with
  | some t => t.rows
  | none => []

/-- Rows of the `urls` table (none when the table is absent). -/
def DB.urlRows (db : DB) : List UrlRow :=
  match db.urls with
  | some t => t.rows
  | none => []

/-- `username TEXT NOT NULL UNIQUE`: no two rows share a username. -/
def DB.UsernamesUnique (db : DB) : Prop :=
  (db.userRows.map (fun r => r.username)).Nodup

/-- `short_id TEXT NOT NULL UNIQUE`: no two rows share a short id. -/
def DB.ShortIdsUnique (db : DB) : Prop :=
  (db.urlRows.map (fun r => r.short_id)).Nodup

instance (db : DB) : Decidable db.UsernamesUnique := by
  unfold DB.UsernamesUnique; infer_instance

instance (db : DB) : Decidable db.ShortIdsUnique := by
  unfold DB.ShortIdsUnique; infer_instance

/-! ## Lemmas on the SQL statements -/

theorem execInsertUrl_ok {db db1 : DB} {s url u : String}
    (h : execInsertUrl db s url u = .ok db1) :
    ∃ t, db.urls = some t ∧ (∀ r ∈ t.rows, r.short_id ≠ s) ∧
      db1 = { db with urls := some ⟨t.rows ++
        [⟨nextRowid (t.rows.map (fun r => r.id)) t.seq, s, url, u⟩],
        nextRowid (t.rows.map (fun r => r.id)) t.seq⟩ } := by
  unfold execInsertUrl at h
  cases hu : db.urls with
  | none => simp [hu] at h
  | some t =>
    simp only [hu] at h
    by_cases hfull : maxRowid < nextRowid (t.rows.map (fun r => r.id)) t.seq
    · simp [hfull] at h
    · simp only [hfull, if_false] at h
      by_cases hany : t.rows.any (fun r => r.short_id == s) = true
      · simp [hany] at h
      · simp only [hany] at h
        refine ⟨t, rfl, ?_, ?_⟩
        · intro r hr hs
          apply hany
          simp only [List.any_eq_true]
          exact ⟨r, hr, by simp [hs]⟩
        · simp only [Bool.false_eq_true, if_false] at h
          injection h with h
          exact h.symm

theorem execInsertUrl_fresh {db : DB} {t : Table UrlRow} (s url u : String)
    (ht : db.urls = some t)
    (hroom : nextRowid (t.rows.map (fun r => r.id)) t.seq ≤ maxRowid)
    (hfresh : ∀ r ∈ t.rows, r.short_id ≠ s) :
    execInsertUrl db s url u = .ok { db with urls := some ⟨t.rows ++
        [⟨nextRowid (t.rows.map (fun r => r.id)) t.seq, s, url, u⟩],
        nextRowid (t.rows.map (fun r => r.id)) t.seq⟩ } := by
  unfold execInsertUrl
  simp only [ht]
  have hany : t.rows.any (fun r => r.short_id == s) = false := by
    rw [List.any_eq_false]
    intro r hr
    simpa using hfresh r hr
  simp [hany, Nat.not_lt.mpr hroom]

theorem execInsertUrl_taken {db : DB} {t : Table UrlRow} {r : UrlRow} (s url u : String)
    (ht : db.urls = some t) (hr : r ∈ t.rows) (hs : r.short_id = s) :
    execInsertUrl db s url u =
      .error (if maxRowid < nextRowid (t.rows.map (fun r => r.id)) t.seq then .full
        else .uniqueFailed "urls.short_id") := by
  unfold execInsertUrl
  simp only [ht]
  have hany : t.rows.any (fun r => r.short_id == s) = true := by
    simp only [List.any_eq_true]
    exact ⟨r, hr, by simp [hs]⟩
  by_cases hfull : maxRowid < nextRowid (t.rows.map (fun r => r.id)) t.seq
  · simp [hfull]
  · simp [hfull, hany]

theorem queryOriginalUrl_none {db : DB} {id : String}
    (h : ∀ r ∈ db.urlRows, r.short_id ≠ id) :
    ∃ e, queryOriginalUrl db id = .error e := by
  unfold queryOriginalUrl
  unfold DB.urlRows at h
  cases hu : db.urls with
  | none => exact ⟨_, rfl⟩
  | some t =>
    simp only [hu] at h
    have hf : t.rows.find? (fun r => r.short_id == id) = none := by
      rw [List.find?_eq_none]
      intro r hr
      simpa using h r hr
    simp only [hf]
    exact ⟨_, rfl⟩

theorem queryOriginalUrl_first {db : DB} {id : String} {r : UrlRow}
    (hr : r ∈ db.urlRows) (hs : r.short_id = id) :
    ∃ r0 ∈ db.urlRows, r0.short_id = id ∧ queryOriginalUrl db id = .ok r0.original_url := by
  unfold queryOriginalUrl
  unfold DB.urlRows at hr ⊢
  cases hu : db.urls with
  | none => simp [hu] at hr
  | some t =>
    simp only [hu] at hr ⊢
    cases hf : t.rows.find? (fun r => r.short_id == id) with
    | none =>
      rw [List.find?_eq_none] at hf
      exact absurd (by simp [hs]) (hf r hr)
    | some r0 =>
      refine ⟨r0, List.mem_of_find?_eq_some hf, ?_, rfl⟩
      simpa using List.find?_some hf

/-- Two rows of a list without duplicate keys that agree on the key are the
same row. -/
theorem eq_of_nodup_map {α β : Type} (f : α → β) :
    ∀ (l : List α), (l.map f).Nodup → ∀ a ∈ l, ∀ b ∈ l, f a = f b → a = b
  | [], _, a, ha, _, _, _ => by simp at ha
  | x :: l, hn, a, ha, b, hb, hab => by
    simp only [List.map_cons, List.nodup_cons, List.mem_map, not_exists, not_and] at hn
    rcases List.mem_cons.mp ha with rfl | ha1
    · rcases List.mem_cons.mp hb with rfl | hb1
      · rfl
      · exact absurd hab.symm (hn.1 b hb1)
    · rcases List.mem_cons.mp hb with rfl | hb1
      · exact absurd hab (hn.1 a ha1)
      · exact eq_of_nodup_map f l hn.2 a ha1 b hb1 hab

theorem queryOriginalUrl_unique {db : DB} {id : String} {r : UrlRow}
    (hu : db.ShortIdsUnique) (hr : r ∈ db.urlRows) (hs : r.short_id = id) :
    queryOriginalUrl db id = .ok r.original_url := by
  obtain ⟨r0, hr0, hs0, hq⟩ := queryOriginalUrl_first hr hs
  have : r0 = r :=
    eq_of_nodup_map (fun r : UrlRow => r.short_id) db.urlRows hu r0 hr0 r hr (by simp [hs0, hs])
  rw [hq, this]

/-! ## Lemmas on short identifiers -/

theorem hexEncode_length (l : List Nat) : (hexEncode l).length = 2 * l.length := by
  induction l with
  | nil => rfl
  | cons v l ih =>
    simp only [hexEncode, List.flatMap_cons, List.length_append, List.length_cons,
      List.length_nil] at ih ⊢
    omega

theorem hexChar_ne_dash (n : Nat) : hexChar n ≠ '-' := by
  unfold hexChar hextable
  by_cases h : n < 16
  · interval_cases n <;> decide
  · have : ("0123456789abcdef".data).length ≤ n := by
      have : ("0123456789abcdef".data).length = 16 := by decide
      omega
    rw [List.getD_eq_default _ _ this]
    decide

theorem dash_not_mem_hexEncode (l : List Nat) : '-' ∉ hexEncode l := by
  induction l with
  | nil => simp [hexEncode]
  | cons v l ih =>
    simp only [hexEncode, List.flatMap_cons, List.mem_append, List.mem_cons,
      List.mem_singleton, List.not_mem_nil, or_false, not_or] at ih ⊢
    exact ⟨⟨fun h => hexChar_ne_dash _ h.symm, fun h => hexChar_ne_dash _ h.symm⟩, ih⟩

theorem UUID.String_length (u : UUID) : u.String.length = 36 := by
  have h := u.size
  simp only [UUID.String, String.length, List.length_append, List.length_cons,
    hexEncode_length, List.length_take, List.length_drop, h]
  decide

theorem UUID.String_take (u : UUID) :
    u.String.data.take 8 = hexEncode (u.bytes.take 4) := by
  have h := u.size
  simp only [UUID.String, List.append_assoc]
  apply List.take_left'
  simp [hexEncode_length, h]

theorem newShortID_eq (rnd : UUID) :
    newShortID rnd = some (String.mk (hexEncode ((UUID.New rnd).bytes.take 4))) := by
  unfold newShortID sliceTo
  rw [UUID.String_length, UUID.String_take]
  simp

theorem queryOriginalUrl_inserted {db db1 : DB} {s url u : String}
    (h : execInsertUrl db s url u = .ok db1) : queryOriginalUrl db1 s = .ok url := by
  obtain ⟨t, _, hfresh, rfl⟩ := execInsertUrl_ok h
  have hf : t.rows.find? (fun r => r.short_id == s) = none := by
    rw [List.find?_eq_none]
    intro r hr
    simpa using hfresh r hr
  simp [queryOriginalUrl, List.find?_append, hf]

theorem execInsertUser_fresh {db : DB} {t : Table UserRow} (u p : String)
    (ht : db.users = some t)
    (hroom : nextRowid (t.rows.map (fun r => r.id)) t.seq ≤ maxRowid)
    (hfresh : ∀ r ∈ t.rows, r.username ≠ u) :
    execInsertUser db u p = .ok { db with users := some ⟨t.rows ++
        [⟨nextRowid (t.rows.map (fun r => r.id)) t.seq, u, p⟩],
        nextRowid (t.rows.map (fun r => r.id)) t.seq⟩ } := by
  unfold execInsertUser
  simp only [ht]
  have hany : t.rows.any (fun r => r.username == u) = false := by
    rw [List.any_eq_false]
    intro r hr
    simpa using hfresh r hr
  simp [hany, Nat.not_lt.mpr hroom]

theorem execInsertUser_taken {db : DB} {t : Table UserRow} {r : UserRow} (u p : String)
    (ht : db.users = some t) (hr : r ∈ t.rows) (hs : r.username = u) :
    execInsertUser db u p =
      .error (if maxRowid < nextRowid (t.rows.map (fun r => r.id)) t.seq then .full
        else .uniqueFailed "users.username") := by
  unfold execInsertUser
  simp only [ht]
  have hany : t.rows.any (fun r => r.username == u) = true := by
    simp only [List.any_eq_true]
    exact ⟨r, hr, by simp [hs]⟩
  by_cases hfull : maxRowid < nextRowid (t.rows.map (fun r => r.id)) t.seq
  · simp [hfull]
  · simp [hfull, hany]

theorem execInsertUser_full {db : DB} {t : Table UserRow} (u p : String)
    (ht : db.users = some t)
    (hfull : maxRowid < nextRowid (t.rows.map (fun r => r.id)) t.seq) :
    execInsertUser db u p = .error .full := by
  unfold execInsertUser
  simp [ht, hfull]

theorem execInsertUser_ok {db db1 : DB} {u p : String}
    (h : execInsertUser db u p = .ok db1) :
    ∃ t, db.users = some t ∧ (∀ r ∈ t.rows, r.username ≠ u) ∧
      db1 = { db with users := some ⟨t.rows ++
        [⟨nextRowid (t.rows.map (fun r => r.id)) t.seq, u, p⟩],
        nextRowid (t.rows.map (fun r => r.id)) t.seq⟩ } := by
  cases hu : db.users with
  | none => simp [execInsertUser, hu] at h
  | some t =>
    by_cases hfull : maxRowid < nextRowid (t.rows.map (fun r => r.id)) t.seq
    · rw [execInsertUser_full u p hu hfull] at h
      cases h
    · by_cases hfresh : ∀ r ∈ t.rows, r.username ≠ u
      · rw [execInsertUser_fresh u p hu (Nat.not_lt.mp hfull) hfresh] at h
        injection h with h
        exact ⟨t, rfl, hfresh, h.symm⟩
      · push_neg at hfresh
        obtain ⟨r, hr, hs⟩ := hfresh
        rw [execInsertUser_taken u p hu hr hs] at h
        cases h

theorem queryPassword_unknown {db : DB} {u : String}
    (h : ∀ r ∈ db.userRows, r.username ≠ u) : ∃ e, queryPassword db u = .error e := by
  unfold queryPassword
  unfold DB.userRows at h
  cases hu : db.users with
  | none => exact ⟨_, rfl⟩
  | some t =>
    simp only [hu] at h
    have hf : t.rows.find? (fun r => r.username == u) = none := by
      rw [List.find?_eq_none]
      intro r hr
      simpa using h r hr
    simp only [hf]
    exact ⟨_, rfl⟩

theorem queryPassword_ok {db : DB} {u p : String} (h : queryPassword db u = .ok p) :
    ∃ r ∈ db.userRows, r.username = u ∧ r.password = p := by
  unfold queryPassword at h
  unfold DB.userRows
  cases hu : db.users with
  | none => simp [hu] at h
  | some t =>
    simp only [hu] at h ⊢
    cases hf : t.rows.find? (fun r => r.username == u) with
    | none => simp [hf] at h
    | some r0 =>
      simp only [hf] at h
      injection h with h
      exact ⟨r0, List.mem_of_find?_eq_some hf, by simpa using List.find?_some hf, h⟩

theorem queryPassword_unique {db : DB} {u : String} {r : UserRow}
    (hu : db.UsernamesUnique) (hr : r ∈ db.userRows) (hs : r.username = u) :
    queryPassword db u = .ok r.password := by
  cases hq : queryPassword db u with
  | error e =>
    exfalso
    unfold queryPassword at hq
    unfold DB.userRows at hr
    cases hdb : db.users with
    | none => simp [hdb] at hr
    | some t =>
      simp only [hdb] at hq hr
      cases hf : t.rows.find? (fun r => r.username == u) with
      | none =>
        rw [List.find?_eq_none] at hf
        exact hf r hr (by simp [hs])
      | some r0 => simp [hf] at hq
  | ok p =>
    obtain ⟨r0, hr0, hs0, hp0⟩ := queryPassword_ok hq
    have : r0 = r :=
      eq_of_nodup_map (fun r : UserRow => r.username) db.userRows hu r0 hr0 r hr
        (by simp [hs0, hs])
    rw [← hp0, this]

theorem nextRowid_append (ids : List Nat) (seq : Nat) :
    nextRowid (ids ++ [nextRowid ids seq]) (nextRowid ids seq) = nextRowid ids seq + 1 := by
  simp only [nextRowid, List.foldl_append, List.foldl_cons, List.foldl_nil]
  omega

theorem postShorten_db (db : DB) (sess : Session) (url baseURL : String) (rnd : UUID) :
    (postShorten db sess url rnd baseURL).db = db ∨
    ∃ s t user, newShortID rnd = some s ∧ db.urls = some t ∧ sess = some user ∧
      (postShorten db sess url rnd baseURL).db =
        { db with urls := some ⟨t.rows ++
          [⟨nextRowid (t.rows.map (fun r => r.id)) t.seq, s, url, user⟩],
          nextRowid (t.rows.map (fun r => r.id)) t.seq⟩ } := by
  by_cases hurl : url = ""
  · left; simp [postShorten, hurl]
  · cases sess with
    | none => left; simp [postShorten, hurl]
    | some user =>
      cases hid : newShortID rnd with
      | none => left; simp [postShorten, hurl, hid]
      | some s =>
        cases hins : execInsertUrl db s url user with
        | error e => left; simp [postShorten, hurl, hid, hins]
        | ok db1 =>
          right
          obtain ⟨t, ht, _, hdb⟩ := execInsertUrl_ok hins
          exact ⟨s, t, user, rfl, ht, rfl, by simp [postShorten, hurl, hid, hins, hdb]⟩

theorem postRegister_taken {db : DB} {t : Table UserRow} {r : UserRow} {u : String}
    (sess : Session) (p : String) (hname : u ≠ "") (hp : p ≠ "")
    (ht : db.users = some t) (hr : r ∈ t.rows) (hs : r.username = u) :
    postRegister db sess u p =
      ⟨.sendString 500
        (if maxRowid < nextRowid (t.rows.map (fun r => r.id)) t.seq then
          "Could not register user: database or disk is full"
        else "Could not register user: UNIQUE constraint failed: users.username"),
        db, sess⟩ := by
  have he : "Could not register user: " ++ (SqlError.uniqueFailed "users.username").Error =
      "Could not register user: UNIQUE constraint failed: users.username" := by decide
  have hf : "Could not register user: " ++ SqlError.full.Error =
      "Could not register user: database or disk is full" := by decide
  by_cases hfull : maxRowid < nextRowid (t.rows.map (fun r => r.id)) t.seq
  · simp [postRegister, hname, hp, execInsertUser_taken u p ht hr hs,
      StatusInternalServerError, hf, hfull]
  · simp [postRegister, hname, hp, execInsertUser_taken u p ht hr hs,
      StatusInternalServerError, he, hfull]

/-! ## Lemmas on handlers, startup and runs -/

theorem initDB_eq (prior : DB) :
    initDB prior = .ok ⟨some (prior.users.getD ⟨[], 0⟩), some ⟨[], 0⟩⟩ := by
  cases hu : prior.users <;>
    simp [initDB, execDropUrls, execCreateUsersTable, execCreateUrlsTable, hu, bind,
      Except.bind, pure, Except.pure]

theorem boot_eq (prior : DB) :
    boot prior = some ⟨⟨some (prior.users.getD ⟨[], 0⟩), some ⟨[], 0⟩⟩, fun _ => none⟩ := by
  simp [boot, initDB_eq]

theorem getId_notFound {db : DB} (sess : Session) {id : String}
    (h : ∀ r ∈ db.urlRows, r.short_id ≠ id) :
    getId db sess id = ⟨.sendString 404 "URL not found", db, sess⟩ := by
  obtain ⟨e, he⟩ := queryOriginalUrl_none h
  simp [getId, he, StatusNotFound]

theorem postShorten_ok {db : DB} {user url baseURL template : String} {rnd : UUID}
    {data : List (String × Value)}
    (h : (postShorten db (some user) url rnd baseURL).resp = .render template data) :
    ∃ s t, newShortID rnd = some s ∧ db.urls = some t ∧ (∀ r ∈ t.rows, r.short_id ≠ s) ∧
      (postShorten db (some user) url rnd baseURL).db =
        { db with urls := some ⟨t.rows ++
          [⟨nextRowid (t.rows.map (fun r => r.id)) t.seq, s, url, user⟩],
          nextRowid (t.rows.map (fun r => r.id)) t.seq⟩ } := by
  unfold postShorten at h ⊢
  by_cases hurl : url = ""
  · simp [hurl] at h
  · simp only [hurl, if_false] at h ⊢
    cases hid : newShortID rnd with
    | none => simp [hid] at h
    | some s =>
      simp only [hid] at h ⊢
      cases hins : execInsertUrl db s url user with
      | error e => simp [hins] at h
      | ok db1 =>
        obtain ⟨t, ht, hfresh, hdb⟩ := execInsertUrl_ok hins
        exact ⟨s, t, rfl, ht, hfresh, hdb⟩

/-- What one request does to the database: nothing, one user row appended
under a fresh username, or one link row appended under a fresh short id that
the request hands out. -/
theorem handle_db (req : Request) (db : DB) (sess : Session) :
    (handle req db sess).db = db ∨
    (∃ u p, execInsertUser db u p = .ok (handle req db sess).db) ∨
    (∃ s url user, s ∈ issuedBy req db sess ∧
      execInsertUrl db s url user = .ok (handle req db sess).db) := by
  cases req with
  | getIndex =>
    left
    simp only [handle, getIndex]
    split
    · rfl
    · split <;> rfl
  | getRegister => exact Or.inl rfl
  | postRegister u p =>
    simp only [handle, postRegister]
    split
    · exact Or.inl rfl
    · cases hins : execInsertUser db u p with
      | error e => exact Or.inl rfl
      | ok db1 => exact Or.inr (Or.inl ⟨u, p, hins⟩)
  | getLogin => exact Or.inl rfl
  | postLogin u p =>
    left
    simp only [handle, postLogin]
    split
    · rfl
    · split <;> rfl
  | getLogout => exact Or.inl rfl
  | postShorten url rnd baseURL =>
    by_cases hurl : url = ""
    · left; simp [handle, postShorten, hurl]
    · cases sess with
      | none => left; simp [handle, postShorten, hurl]
      | some user =>
        cases hid : newShortID rnd with
        | none => left; simp [handle, postShorten, hurl, hid]
        | some s =>
          cases hins : execInsertUrl db s url user with
          | error e => left; simp [handle, postShorten, hurl, hid, hins]
          | ok db1 =>
            right; right
            exact ⟨s, url, user, by simp [issuedBy, postShorten, hurl, hid, hins],
              by simp [handle, postShorten, hurl, hid, hins]⟩
  | getId id =>
    left
    simp only [handle, getId]
    split <;> rfl

theorem execInsertUser_unique {db db1 : DB} {u p : String}
    (h : execInsertUser db u p = .ok db1) :
    db1.urls = db.urls ∧ (db.UsernamesUnique → db1.UsernamesUnique) := by
  obtain ⟨t, ht, hfresh, rfl⟩ := execInsertUser_ok h
  refine ⟨rfl, ?_⟩
  intro hu
  simp only [DB.UsernamesUnique, DB.userRows, ht] at hu ⊢
  rw [List.map_append, List.nodup_append]
  refine ⟨hu, by simp, ?_⟩
  intro a ha hb
  simp only [List.map_cons, List.map_nil, List.mem_singleton] at hb
  simp only [List.mem_map] at ha
  obtain ⟨r, hr, rfl⟩ := ha
  exact hfresh r hr hb

theorem execInsertUrl_unique {db db1 : DB} {s url u : String}
    (h : execInsertUrl db s url u = .ok db1) :
    db1.users = db.users ∧ (db.ShortIdsUnique → db1.ShortIdsUnique) ∧
      ∀ r ∈ db1.urlRows, r ∈ db.urlRows ∨ r.short_id = s := by
  obtain ⟨t, ht, hfresh, rfl⟩ := execInsertUrl_ok h
  refine ⟨rfl, ?_, ?_⟩
  · intro hu
    simp only [DB.ShortIdsUnique, DB.urlRows, ht] at hu ⊢
    rw [List.map_append, List.nodup_append]
    refine ⟨hu, by simp, ?_⟩
    intro a ha hb
    simp only [List.map_cons, List.map_nil, List.mem_singleton] at hb
    simp only [List.mem_map] at ha
    obtain ⟨r, hr, rfl⟩ := ha
    exact hfresh r hr hb
  · intro r hr
    simp only [DB.urlRows, ht, List.mem_append, List.mem_singleton] at hr ⊢
    rcases hr with hr | hr
    · exact Or.inl hr
    · exact Or.inr (by rw [hr])

theorem handle_unique (req : Request) (db : DB) (sess : Session)
    (h : db.UsernamesUnique ∧ db.ShortIdsUnique) :
    (handle req db sess).db.UsernamesUnique ∧ (handle req db sess).db.ShortIdsUnique := by
  rcases handle_db req db sess with h0 | ⟨u, p, h1⟩ | ⟨s, url, user, _, h2⟩
  · rw [h0]; exact h
  · obtain ⟨hurls, hk⟩ := execInsertUser_unique h1
    refine ⟨hk h.1, ?_⟩
    have := h.2
    simp only [DB.ShortIdsUnique, DB.urlRows, hurls] at this ⊢
    exact this
  · obtain ⟨husers, hk, _⟩ := execInsertUrl_unique h2
    refine ⟨?_, hk h.2⟩
    have := h.1
    simp only [DB.UsernamesUnique, DB.userRows, husers] at this ⊢
    exact this

theorem handle_urlRows (req : Request) (db : DB) (sess : Session) :
    ∀ r ∈ (handle req db sess).db.urlRows,
      r ∈ db.urlRows ∨ r.short_id ∈ issuedBy req db sess := by
  intro r hr
  rcases handle_db req db sess with h0 | ⟨u, p, h1⟩ | ⟨s, url, user, hs, h2⟩
  · rw [h0] at hr; exact Or.inl hr
  · obtain ⟨hurls, _⟩ := execInsertUser_unique h1
    simp only [DB.urlRows, hurls] at hr ⊢
    exact Or.inl hr
  · obtain ⟨_, _, hk⟩ := execInsertUrl_unique h2
    rcases hk r hr with h | h
    · exact Or.inl h
    · exact Or.inr (by rw [h]; exact hs)

theorem run_urlRows (trace : List (Nat × Request)) :
    ∀ (a : App), ∀ r ∈ (run a trace).db.urlRows,
      r ∈ a.db.urlRows ∨ r.short_id ∈ issued a trace := by
  induction trace with
  | nil => intro a r hr; exact Or.inl hr
  | cons x rest ih =>
    obtain ⟨client, req⟩ := x
    intro a r hr
    simp only [run, issued, List.mem_append] at hr ⊢
    rcases ih (a.step client req) r hr with h | h
    · rcases handle_urlRows req a.db (a.sessions client) r h with h1 | h1
      · exact Or.inl h1
      · exact Or.inr (Or.inl h1)
    · exact Or.inr (Or.inr h)

/-! ## The contract -/

/-- C1 (round trip): when `POST /shorten` by a logged-in user with a non-empty
URL answers with the rendered short URL, the response carries the generated
short id, and `GET /:id` on that id in the resulting database redirects to
exactly the submitted URL, whoever asks. -/
theorem shorten_then_resolve (db : DB) (user originalURL baseURL : String) (rnd : UUID)
    (sess2 : Session) (template : String) (data : List (String × Value))
    (hurl : originalURL ≠ "")
    (hok : (postShorten db (some user) originalURL rnd baseURL).resp = .render template data) :
    ∃ shortID, newShortID rnd = some shortID ∧
      template = "index" ∧
      data = [("ShortURL", .text (baseURL ++ "/" ++ shortID)), ("User", .text user)] ∧
      getId (postShorten db (some user) originalURL rnd baseURL).db sess2 shortID =
        ⟨.redirect originalURL, (postShorten db (some user) originalURL rnd baseURL).db, sess2⟩ := by
  unfold postShorten at hok ⊢
  simp only [hurl, if_false] at hok ⊢
  cases hid : newShortID rnd with
  | none => simp [hid] at hok
  | some shortID =>
    simp only [hid] at hok ⊢
    cases hins : execInsertUrl db shortID originalURL user with
    | error e => simp [hins] at hok
    | ok db1 =>
      simp only [hins] at hok ⊢
      injection hok with h1 h2
      refine ⟨shortID, rfl, h1.symm, h2.symm, ?_⟩
      simp [getId, queryOriginalUrl_inserted hins]

theorem shorten_then_resolve_witness :
    ∃ shortID, newShortID ⟨[222, 173, 190, 239, 1, 2, 3, 4, 5, 6, 7, 8, 9, 10, 11, 12], rfl⟩
        = some shortID ∧
      "index" = "index" ∧
      [("ShortURL", Value.text "http://localhost:3000/deadbeef"), ("User", Value.text "alice")] =
        [("ShortURL", .text ("http://localhost:3000" ++ "/" ++ shortID)), ("User", .text "alice")] ∧
      getId (postShorten ⟨some ⟨[], 0⟩, some ⟨[], 0⟩⟩ (some "alice") "https://example.com"
          ⟨[222, 173, 190, 239, 1, 2, 3, 4, 5, 6, 7, 8, 9, 10, 11, 12], rfl⟩
          "http://localhost:3000").db none shortID =
        ⟨.redirect "https://example.com",
          (postShorten ⟨some ⟨[], 0⟩, some ⟨[], 0⟩⟩ (some "alice") "https://example.com"
            ⟨[222, 173, 190, 239, 1, 2, 3, 4, 5, 6, 7, 8, 9, 10, 11, 12], rfl⟩
            "http://localhost:3000").db, none⟩ :=
  shorten_then_resolve ⟨some ⟨[], 0⟩, some ⟨[], 0⟩⟩ "alice" "https://example.com"
    "http://localhost:3000" ⟨[222, 173, 190, 239, 1, 2, 3, 4, 5, 6, 7, 8, 9, 10, 11, 12], rfl⟩
    none "index"
    [("ShortURL", .text "http://localhost:3000/deadbeef"), ("User", .text "alice")]
    (by decide) (by decide)

/-- C2 (failures of shorten): an empty `url` is answered 400 whatever the
session holds, a non-empty `url` without a session user is answered 401, and
in both cases the database (both tables) and the session are returned as they
were. -/
theorem shorten_failures (db : DB) (sess : Session) (originalURL baseURL : String)
    (rnd : UUID) :
    (originalURL = "" →
      postShorten db sess originalURL rnd baseURL =
        ⟨.sendString 400 "URL is required", db, sess⟩) ∧
    (originalURL ≠ "" → sess = none →
      postShorten db sess originalURL rnd baseURL =
        ⟨.sendString 401 "You must be logged in to shorten a URL", db, sess⟩) := by
  constructor
  · intro h
    simp [postShorten, h, StatusBadRequest]
  · intro h hs
    subst hs
    simp [postShorten, h, StatusUnauthorized]

theorem shorten_failures_witness :
    postShorten ⟨some ⟨[⟨1, "alice", "pw1"⟩], 1⟩, some ⟨[], 0⟩⟩ (some "alice") ""
        ⟨[0, 1, 2, 3, 4, 5, 6, 7, 8, 9, 10, 11, 12, 13, 14, 15], rfl⟩ "http://h" =
      ⟨.sendString 400 "URL is required",
        ⟨some ⟨[⟨1, "alice", "pw1"⟩], 1⟩, some ⟨[], 0⟩⟩, some "alice"⟩ ∧
    postShorten ⟨some ⟨[⟨1, "alice", "pw1"⟩], 1⟩, some ⟨[], 0⟩⟩ none "https://example.com"
        ⟨[0, 1, 2, 3, 4, 5, 6, 7, 8, 9, 10, 11, 12, 13, 14, 15], rfl⟩ "http://h" =
      ⟨.sendString 401 "You must be logged in to shorten a URL",
        ⟨some ⟨[⟨1, "alice", "pw1"⟩], 1⟩, some ⟨[], 0⟩⟩, none⟩ :=
  ⟨(shorten_failures ⟨some ⟨[⟨1, "alice", "pw1"⟩], 1⟩, some ⟨[], 0⟩⟩ (some "alice") ""
      "http://h" ⟨[0, 1, 2, 3, 4, 5, 6, 7, 8, 9, 10, 11, 12, 13, 14, 15], rfl⟩).1 rfl,
   (shorten_failures ⟨some ⟨[⟨1, "alice", "pw1"⟩], 1⟩, some ⟨[], 0⟩⟩ none
      "https://example.com" "http://h"
      ⟨[0, 1, 2, 3, 4, 5, 6, 7, 8, 9, 10, 11, 12, 13, 14, 15], rfl⟩).2 (by decide) rfl⟩

/-- C6 (short id): for every sixteen random bytes the slice `[:8]` of the
identifier's rendering is in range and yields its first 8 characters, the
short id has length 8 and holds no `-`. Whatever a shorten persists is the one
row (short id, submitted URL, session user), appended after the rows already
there: every call either returns the database as it was or returns it with
exactly that row added to `urls`; and it does add the row, answering with the
short URL, when the URL is non-empty, the short id is fresh and `urls` can
still allocate a rowid. -/
theorem shortID_first_eight (rnd : UUID) :
    ∃ shortID, newShortID rnd = some shortID ∧
      shortID.data = (UUID.New rnd).String.data.take 8 ∧
      shortID.length = 8 ∧ 8 ≤ (UUID.New rnd).String.length ∧ '-' ∉ shortID.data ∧
      (∀ (db : DB) (sess : Session) (originalURL baseURL : String),
        (postShorten db sess originalURL rnd baseURL).db = db ∨
        ∃ t user, db.urls = some t ∧ sess = some user ∧
          (postShorten db sess originalURL rnd baseURL).db =
            { db with urls := some ⟨t.rows ++
              [⟨nextRowid (t.rows.map (fun r => r.id)) t.seq, shortID, originalURL, user⟩],
              nextRowid (t.rows.map (fun r => r.id)) t.seq⟩ }) ∧
      (∀ (db : DB) (t : Table UrlRow) (user originalURL baseURL : String),
        originalURL ≠ "" → db.urls = some t →
        nextRowid (t.rows.map (fun r => r.id)) t.seq ≤ maxRowid →
        (∀ r ∈ t.rows, r.short_id ≠ shortID) →
        postShorten db (some user) originalURL rnd baseURL =
          ⟨.render "index" [("ShortURL", .text (baseURL ++ "/" ++ shortID)),
              ("User", .text user)],
            { db with urls := some ⟨t.rows ++
              [⟨nextRowid (t.rows.map (fun r => r.id)) t.seq, shortID, originalURL, user⟩],
              nextRowid (t.rows.map (fun r => r.id)) t.seq⟩ }, some user⟩) := by
  refine ⟨_, newShortID_eq rnd, ?_, ?_, ?_, ?_, ?_, ?_⟩
  · exact (UUID.String_take _).symm
  · have h := (UUID.New rnd).size
    simp [String.length, hexEncode_length, h]
  · rw [UUID.String_length]
    decide
  · exact dash_not_mem_hexEncode _
  · intro db sess originalURL baseURL
    rcases postShorten_db db sess originalURL baseURL rnd with h | ⟨s, t, user, hs, ht, hu, hdb⟩
    · exact Or.inl h
    · right
      rw [newShortID_eq] at hs
      have hs1 := Option.some.inj hs
      subst hs1
      exact ⟨t, user, ht, hu, hdb⟩
  · intro db t user originalURL baseURL hurl ht hroom hfresh
    simp [postShorten, hurl, newShortID_eq, execInsertUrl_fresh _ _ _ ht hroom hfresh]

theorem shortID_first_eight_witness :
    ∃ shortID,
      newShortID ⟨[222, 173, 190, 239, 1, 2, 3, 4, 5, 6, 7, 8, 9, 10, 11, 12], rfl⟩ =
        some shortID ∧
      shortID.data = (UUID.New
        ⟨[222, 173, 190, 239, 1, 2, 3, 4, 5, 6, 7, 8, 9, 10, 11, 12], rfl⟩).String.data.take 8 ∧
      shortID.length = 8 ∧
      postShorten ⟨some ⟨[], 0⟩, some ⟨[⟨1, "0badcafe", "https://a.example", "bob"⟩], 1⟩⟩
        (some "alice") "https://example.com"
        ⟨[222, 173, 190, 239, 1, 2, 3, 4, 5, 6, 7, 8, 9, 10, 11, 12], rfl⟩ "http://h" =
        ⟨.render "index" [("ShortURL", .text ("http://h" ++ "/" ++ shortID)),
            ("User", .text "alice")],
          ⟨some ⟨[], 0⟩, some ⟨[⟨1, "0badcafe", "https://a.example", "bob"⟩,
            ⟨2, shortID, "https://example.com", "alice"⟩], 2⟩⟩, some "alice"⟩ := by
  obtain ⟨shortID, h1, h2, h3, _, _, _, h7⟩ :=
    shortID_first_eight ⟨[222, 173, 190, 239, 1, 2, 3, 4, 5, 6, 7, 8, 9, 10, 11, 12], rfl⟩
  have hs : shortID = "deadbeef" := by
    have hd : newShortID ⟨[222, 173, 190, 239, 1, 2, 3, 4, 5, 6, 7, 8, 9, 10, 11, 12], rfl⟩ =
        some "deadbeef" := by decide
    rw [hd] at h1
    exact (Option.some.inj h1).symm
  refine ⟨shortID, h1, h2, h3, ?_⟩
  exact h7 ⟨some ⟨[], 0⟩, some ⟨[⟨1, "0badcafe", "https://a.example", "bob"⟩], 1⟩⟩
    ⟨[⟨1, "0badcafe", "https://a.example", "bob"⟩], 1⟩ "alice" "https://example.com" "http://h"
    (by decide) rfl (by decide) (by subst hs; decide)

/-- C7 (collision): when `urls` already holds a row whose short id is the one
generated for this request, a shorten by a logged-in user with a non-empty URL
is answered 500, nothing is retried, and the database and the session are
returned as they were; the body names the uniqueness error, or "database or
disk is full" when `urls` has no rowid left, which the storage engine notices
first. `GET /:id` on that id answers after the request what it answered
before: a redirect to a stored URL of that id, the URL of the given row when
short ids are unique. -/
theorem shorten_collision (db : DB) (t : Table UrlRow) (user originalURL baseURL s : String)
    (rnd : UUID) (sess2 : Session) (r : UrlRow)
    (hurl : originalURL ≠ "") (hid : newShortID rnd = some s)
    (ht : db.urls = some t) (hr : r ∈ t.rows) (hs : r.short_id = s) :
    postShorten db (some user) originalURL rnd baseURL =
      ⟨.sendString 500
        (if maxRowid < nextRowid (t.rows.map (fun r => r.id)) t.seq then
          "Could not shorten URL: database or disk is full"
        else "Could not shorten URL: UNIQUE constraint failed: urls.short_id"),
        db, some user⟩ ∧
    getId (postShorten db (some user) originalURL rnd baseURL).db sess2 s = getId db sess2 s ∧
    (∃ r0 ∈ db.urlRows, r0.short_id = s ∧
      getId db sess2 s = ⟨.redirect r0.original_url, db, sess2⟩) ∧
    (db.ShortIdsUnique →
      getId (postShorten db (some user) originalURL rnd baseURL).db sess2 s =
        ⟨.redirect r.original_url, db, sess2⟩) := by
  have hmem : r ∈ db.urlRows := by simpa [DB.urlRows, ht] using hr
  have hpost : postShorten db (some user) originalURL rnd baseURL =
      ⟨.sendString 500
        (if maxRowid < nextRowid (t.rows.map (fun r => r.id)) t.seq then
          "Could not shorten URL: database or disk is full"
        else "Could not shorten URL: UNIQUE constraint failed: urls.short_id"),
        db, some user⟩ := by
    have he : "Could not shorten URL: " ++ (SqlError.uniqueFailed "urls.short_id").Error =
        "Could not shorten URL: UNIQUE constraint failed: urls.short_id" := by decide
    have hf : "Could not shorten URL: " ++ SqlError.full.Error =
        "Could not shorten URL: database or disk is full" := by decide
    by_cases hfull : maxRowid < nextRowid (t.rows.map (fun r => r.id)) t.seq
    · simp [postShorten, hurl, hid, execInsertUrl_taken s originalURL user ht hr hs,
        StatusInternalServerError, hf, hfull]
    · simp [postShorten, hurl, hid, execInsertUrl_taken s originalURL user ht hr hs,
        StatusInternalServerError, he, hfull]
  refine ⟨hpost, by rw [hpost], ?_, ?_⟩
  · obtain ⟨r0, hr0, hs0, hq⟩ := queryOriginalUrl_first hmem hs
    exact ⟨r0, hr0, hs0, by simp [getId, hq]⟩
  · intro hu
    rw [hpost]
    simp [getId, queryOriginalUrl_unique hu hmem hs]

theorem shorten_collision_witness :
    postShorten ⟨some ⟨[], 0⟩, some ⟨[⟨1, "deadbeef", "https://a.example", "bob"⟩], 1⟩⟩
        (some "alice") "https://example.com"
        ⟨[222, 173, 190, 239, 1, 2, 3, 4, 5, 6, 7, 8, 9, 10, 11, 12], rfl⟩ "http://h" =
      ⟨.sendString 500 "Could not shorten URL: UNIQUE constraint failed: urls.short_id",
        ⟨some ⟨[], 0⟩, some ⟨[⟨1, "deadbeef", "https://a.example", "bob"⟩], 1⟩⟩,
        some "alice"⟩ ∧
    getId (postShorten ⟨some ⟨[], 0⟩, some ⟨[⟨1, "deadbeef", "https://a.example", "bob"⟩], 1⟩⟩
        (some "alice") "https://example.com"
        ⟨[222, 173, 190, 239, 1, 2, 3, 4, 5, 6, 7, 8, 9, 10, 11, 12], rfl⟩ "http://h").db
        none "deadbeef" =
      ⟨.redirect "https://a.example",
        ⟨some ⟨[], 0⟩, some ⟨[⟨1, "deadbeef", "https://a.example", "bob"⟩], 1⟩⟩, none⟩ ∧
    postShorten ⟨some ⟨[], 0⟩, some ⟨[⟨9223372036854775807, "deadbeef", "https://a.example",
          "bob"⟩], 9223372036854775807⟩⟩
        (some "alice") "https://example.com"
        ⟨[222, 173, 190, 239, 1, 2, 3, 4, 5, 6, 7, 8, 9, 10, 11, 12], rfl⟩ "http://h" =
      ⟨.sendString 500 "Could not shorten URL: database or disk is full",
        ⟨some ⟨[], 0⟩, some ⟨[⟨9223372036854775807, "deadbeef", "https://a.example",
          "bob"⟩], 9223372036854775807⟩⟩, some "alice"⟩ :=
  have h := shorten_collision
    ⟨some ⟨[], 0⟩, some ⟨[⟨1, "deadbeef", "https://a.example", "bob"⟩], 1⟩⟩
    ⟨[⟨1, "deadbeef", "https://a.example", "bob"⟩], 1⟩
    "alice" "https://example.com" "http://h" "deadbeef"
    ⟨[222, 173, 190, 239, 1, 2, 3, 4, 5, 6, 7, 8, 9, 10, 11, 12], rfl⟩ none
    ⟨1, "deadbeef", "https://a.example", "bob"⟩ (by decide) (by decide) rfl (by decide) rfl
  have hfull := shorten_collision
    ⟨some ⟨[], 0⟩, some ⟨[⟨9223372036854775807, "deadbeef", "https://a.example", "bob"⟩],
      9223372036854775807⟩⟩
    ⟨[⟨9223372036854775807, "deadbeef", "https://a.example", "bob"⟩], 9223372036854775807⟩
    "alice" "https://example.com" "http://h" "deadbeef"
    ⟨[222, 173, 190, 239, 1, 2, 3, 4, 5, 6, 7, 8, 9, 10, 11, 12], rfl⟩ none
    ⟨9223372036854775807, "deadbeef", "https://a.example", "bob"⟩
    (by decide) (by decide) rfl (by decide) rfl
  ⟨h.1.trans (by decide), h.2.2.2 (by decide), hfull.1.trans (by decide)⟩

/-- C3 (login): on a `users` table with unique usernames, login answers with
the redirect to `/` and the session bound to the submitted username exactly
when some row holds that username with exactly that password; an unknown
username and a known username with another password get one and the same
answer, 401 `Invalid credentials`, with database and session as they were. -/
theorem login_spec (db : DB) (sess : Session) (username password : String)
    (hu : db.UsernamesUnique) :
    (postLogin db sess username password = ⟨.redirect "/", db, some username⟩ ↔
      ∃ r ∈ db.userRows, r.username = username ∧ r.password = password) ∧
    ((∀ r ∈ db.userRows, r.username ≠ username) →
      postLogin db sess username password =
        ⟨.sendString 401 "Invalid credentials", db, sess⟩) ∧
    (∀ r ∈ db.userRows, r.username = username → r.password ≠ password →
      postLogin db sess username password =
        ⟨.sendString 401 "Invalid credentials", db, sess⟩) := by
  refine ⟨⟨?_, ?_⟩, ?_, ?_⟩
  · intro h
    unfold postLogin at h
    cases hq : queryPassword db username with
    | error e => simp [hq] at h
    | ok p =>
      simp only [hq] at h
      by_cases hp : p = password
      · subst hp
        exact queryPassword_ok hq
      · simp [hp] at h
  · rintro ⟨r, hr, hs, hp⟩
    simp [postLogin, queryPassword_unique hu hr hs, hp]
  · intro h
    obtain ⟨e, he⟩ := queryPassword_unknown h
    simp [postLogin, he, StatusUnauthorized]
  · intro r hr hs hp
    simp [postLogin, queryPassword_unique hu hr hs, hp, StatusUnauthorized]

theorem login_spec_witness :
    postLogin ⟨some ⟨[⟨1, "alice", "pw1"⟩, ⟨2, "bob", "pw2"⟩], 2⟩, some ⟨[], 0⟩⟩ none
        "bob" "pw2" =
      ⟨.redirect "/", ⟨some ⟨[⟨1, "alice", "pw1"⟩, ⟨2, "bob", "pw2"⟩], 2⟩, some ⟨[], 0⟩⟩,
        some "bob"⟩ ∧
    postLogin ⟨some ⟨[⟨1, "alice", "pw1"⟩, ⟨2, "bob", "pw2"⟩], 2⟩, some ⟨[], 0⟩⟩ none
        "carol" "pw2" =
      ⟨.sendString 401 "Invalid credentials",
        ⟨some ⟨[⟨1, "alice", "pw1"⟩, ⟨2, "bob", "pw2"⟩], 2⟩, some ⟨[], 0⟩⟩, none⟩ ∧
    postLogin ⟨some ⟨[⟨1, "alice", "pw1"⟩, ⟨2, "bob", "pw2"⟩], 2⟩, some ⟨[], 0⟩⟩ none
        "bob" "pw1" =
      ⟨.sendString 401 "Invalid credentials",
        ⟨some ⟨[⟨1, "alice", "pw1"⟩, ⟨2, "bob", "pw2"⟩], 2⟩, some ⟨[], 0⟩⟩, none⟩ :=
  ⟨(login_spec ⟨some ⟨[⟨1, "alice", "pw1"⟩, ⟨2, "bob", "pw2"⟩], 2⟩, some ⟨[], 0⟩⟩ none
      "bob" "pw2" (by decide)).1.2 ⟨⟨2, "bob", "pw2"⟩, by decide, rfl, rfl⟩,
   (login_spec ⟨some ⟨[⟨1, "alice", "pw1"⟩, ⟨2, "bob", "pw2"⟩], 2⟩, some ⟨[], 0⟩⟩ none
      "carol" "pw2" (by decide)).2.1 (by decide),
   (login_spec ⟨some ⟨[⟨1, "alice", "pw1"⟩, ⟨2, "bob", "pw2"⟩], 2⟩, some ⟨[], 0⟩⟩ none
      "bob" "pw1" (by decide)).2.2 ⟨2, "bob", "pw2"⟩ (by decide) rfl (by decide)⟩

/-- C4, the claim as stated fails where `users` has no rowid left: with the
largest rowid in use, registering the new, non-empty name `bob` is answered
500 "database or disk is full" and the table stays as it was; and when the
first registration takes the last rowid, the second one is answered with that
same error, not with the uniqueness error. -/
theorem register_at_rowid_limit :
    (∀ r ∈ [(⟨9223372036854775807, "alice", "pw1"⟩ : UserRow)], r.username ≠ "bob") ∧
    postRegister ⟨some ⟨[⟨9223372036854775807, "alice", "pw1"⟩], 9223372036854775807⟩,
        some ⟨[], 0⟩⟩ none "bob" "pw2" =
      ⟨.sendString 500 "Could not register user: database or disk is full",
        ⟨some ⟨[⟨9223372036854775807, "alice", "pw1"⟩], 9223372036854775807⟩,
          some ⟨[], 0⟩⟩, none⟩ ∧
    (postRegister ⟨some ⟨[], 9223372036854775806⟩, some ⟨[], 0⟩⟩ none "bob" "pw2").resp =
      .redirect "/login" ∧
    postRegister (postRegister ⟨some ⟨[], 9223372036854775806⟩, some ⟨[], 0⟩⟩ none
        "bob" "pw2").db none "bob" "other" =
      ⟨.sendString 500 "Could not register user: database or disk is full",
        ⟨some ⟨[⟨9223372036854775807, "bob", "pw2"⟩], 9223372036854775807⟩,
          some ⟨[], 0⟩⟩, none⟩ := by
  decide

/-- C4 (register twice), amended: with non-empty username and passwords and
a `users` table that does not hold the username and can still allocate a
rowid, the first register is answered with the redirect to `/login` and
appends exactly the row (username, first password), `urls` untouched; the
second register of the same username is answered 500 and returns the database
of the first, so the stored password of that username is still the first one;
the body names the uniqueness error when a further rowid is left, and
"database or disk is full" when the first register took the last one. -/
theorem register_twice (db : DB) (t : Table UserRow) (sess sess2 : Session)
    (username p1 p2 : String)
    (hname : username ≠ "") (hp1 : p1 ≠ "") (hp2 : p2 ≠ "")
    (ht : db.users = some t)
    (hroom : nextRowid (t.rows.map (fun r => r.id)) t.seq ≤ maxRowid)
    (hnew : ∀ r ∈ t.rows, r.username ≠ username) :
    postRegister db sess username p1 =
      ⟨.redirect "/login",
        { db with users := some ⟨t.rows ++
          [⟨nextRowid (t.rows.map (fun r => r.id)) t.seq, username, p1⟩],
          nextRowid (t.rows.map (fun r => r.id)) t.seq⟩ }, sess⟩ ∧
    postRegister (postRegister db sess username p1).db sess2 username p2 =
      ⟨.sendString 500
        (if nextRowid (t.rows.map (fun r => r.id)) t.seq < maxRowid then
          "Could not register user: UNIQUE constraint failed: users.username"
        else "Could not register user: database or disk is full"),
        (postRegister db sess username p1).db, sess2⟩ ∧
    (∀ r ∈ (postRegister (postRegister db sess username p1).db sess2 username p2).db.userRows,
      r.username = username → r.password = p1) := by
  have h1 : postRegister db sess username p1 =
      ⟨.redirect "/login",
        { db with users := some ⟨t.rows ++
          [⟨nextRowid (t.rows.map (fun r => r.id)) t.seq, username, p1⟩],
          nextRowid (t.rows.map (fun r => r.id)) t.seq⟩ }, sess⟩ := by
    simp [postRegister, hname, hp1, execInsertUser_fresh username p1 ht hroom hnew]
  have hnext : nextRowid
      ((t.rows ++ [(⟨nextRowid (t.rows.map (fun r => r.id)) t.seq, username, p1⟩ : UserRow)]).map
        (fun r => r.id)) (nextRowid (t.rows.map (fun r => r.id)) t.seq) =
      nextRowid (t.rows.map (fun r => r.id)) t.seq + 1 := by
    rw [List.map_append]
    exact nextRowid_append _ _
  have h2 : postRegister (postRegister db sess username p1).db sess2 username p2 =
      ⟨.sendString 500
        (if nextRowid (t.rows.map (fun r => r.id)) t.seq < maxRowid then
          "Could not register user: UNIQUE constraint failed: users.username"
        else "Could not register user: database or disk is full"),
        (postRegister db sess username p1).db, sess2⟩ := by
    have ht1 : (postRegister db sess username p1).db.users = some ⟨t.rows ++
        [⟨nextRowid (t.rows.map (fun r => r.id)) t.seq, username, p1⟩],
        nextRowid (t.rows.map (fun r => r.id)) t.seq⟩ := by rw [h1]
    rw [postRegister_taken sess2 p2 hname hp2 ht1
      (List.mem_append_right _ (List.mem_singleton_self _)) rfl]
    simp only [hnext]
    by_cases hlt : nextRowid (t.rows.map (fun r => r.id)) t.seq < maxRowid
    · have : ¬ maxRowid < nextRowid (t.rows.map (fun r => r.id)) t.seq + 1 := by omega
      simp [hlt, this]
    · have : maxRowid < nextRowid (t.rows.map (fun r => r.id)) t.seq + 1 := by omega
      simp [hlt, this]
  refine ⟨h1, h2, ?_⟩
  rw [h2, h1]
  intro r hr hs
  simp only [DB.userRows, List.mem_append, List.mem_singleton] at hr
  rcases hr with hr | hr
  · exact absurd hs (hnew r hr)
  · rw [hr]

theorem register_twice_witness :
    postRegister ⟨some ⟨[⟨1, "alice", "pw1"⟩], 1⟩, some ⟨[], 0⟩⟩ none "bob" "pw2" =
      ⟨.redirect "/login",
        ⟨some ⟨[⟨1, "alice", "pw1"⟩, ⟨2, "bob", "pw2"⟩], 2⟩, some ⟨[], 0⟩⟩, none⟩ ∧
    postRegister (postRegister ⟨some ⟨[⟨1, "alice", "pw1"⟩], 1⟩, some ⟨[], 0⟩⟩ none
        "bob" "pw2").db none "bob" "other" =
      ⟨.sendString 500 "Could not register user: UNIQUE constraint failed: users.username",
        (postRegister ⟨some ⟨[⟨1, "alice", "pw1"⟩], 1⟩, some ⟨[], 0⟩⟩ none
          "bob" "pw2").db, none⟩ :=
  have h := register_twice ⟨some ⟨[⟨1, "alice", "pw1"⟩], 1⟩, some ⟨[], 0⟩⟩
    ⟨[⟨1, "alice", "pw1"⟩], 1⟩ none none "bob" "pw2" "other"
    (by decide) (by decide) (by decide) rfl (by decide) (by decide)
  ⟨h.1, h.2.1.trans (by decide)⟩

/-- C5 (resolve): `GET /:id` is answered 404 whenever `urls` holds no row
with that short id, in particular for every id that no shorten has handed out
since the start of the process; otherwise it redirects to the original URL
stored in a row of that short id, which is the row of that short id when short
ids are unique. Database and session are returned as they were. -/
theorem resolve_spec (db : DB) (sess : Session) (id : String) :
    ((∀ r ∈ db.urlRows, r.short_id ≠ id) →
      getId db sess id = ⟨.sendString 404 "URL not found", db, sess⟩) ∧
    ((∃ r ∈ db.urlRows, r.short_id = id) →
      ∃ r0 ∈ db.urlRows, r0.short_id = id ∧
        getId db sess id = ⟨.redirect r0.original_url, db, sess⟩) ∧
    (db.ShortIdsUnique → ∀ r ∈ db.urlRows, r.short_id = id →
      getId db sess id = ⟨.redirect r.original_url, db, sess⟩) ∧
    (∀ (prior : DB) (a : App) (trace : List (Nat × Request)),
      boot prior = some a → id ∉ issued a trace →
      getId (run a trace).db sess id =
        ⟨.sendString 404 "URL not found", (run a trace).db, sess⟩) := by
  refine ⟨getId_notFound sess, ?_, ?_, ?_⟩
  · rintro ⟨r, hr, hs⟩
    obtain ⟨r0, hr0, hs0, hq⟩ := queryOriginalUrl_first hr hs
    exact ⟨r0, hr0, hs0, by simp [getId, hq]⟩
  · intro hu r hr hs
    simp [getId, queryOriginalUrl_unique hu hr hs]
  · intro prior a trace hboot hid
    apply getId_notFound
    intro r hr hs
    rcases run_urlRows trace a r hr with h | h
    · rw [boot_eq] at hboot
      have ha := (Option.some.inj hboot).symm
      subst ha
      simp [DB.urlRows] at h
    · exact hid (hs ▸ h)

theorem resolve_spec_witness :
    getId ⟨some ⟨[], 0⟩, some ⟨[⟨1, "deadbeef", "https://a.example", "bob"⟩], 1⟩⟩ none
        "0badcafe" =
      ⟨.sendString 404 "URL not found",
        ⟨some ⟨[], 0⟩, some ⟨[⟨1, "deadbeef", "https://a.example", "bob"⟩], 1⟩⟩, none⟩ ∧
    getId ⟨some ⟨[], 0⟩, some ⟨[⟨1, "deadbeef", "https://a.example", "bob"⟩], 1⟩⟩ none
        "deadbeef" =
      ⟨.redirect "https://a.example",
        ⟨some ⟨[], 0⟩, some ⟨[⟨1, "deadbeef", "https://a.example", "bob"⟩], 1⟩⟩, none⟩ ∧
    (getId (run ⟨⟨some ⟨[], 0⟩, some ⟨[], 0⟩⟩, fun _ => none⟩
        [(7, .postRegister "alice" "pw1"), (7, .postLogin "alice" "pw1"),
          (7, .postShorten "https://example.com"
            ⟨[222, 173, 190, 239, 1, 2, 3, 4, 5, 6, 7, 8, 9, 10, 11, 12], rfl⟩
            "http://h")]).db none "0badcafe").resp =
      .sendString 404 "URL not found" :=
  ⟨(resolve_spec ⟨some ⟨[], 0⟩, some ⟨[⟨1, "deadbeef", "https://a.example", "bob"⟩], 1⟩⟩
      none "0badcafe").1 (by decide),
   (resolve_spec ⟨some ⟨[], 0⟩, some ⟨[⟨1, "deadbeef", "https://a.example", "bob"⟩], 1⟩⟩
      none "deadbeef").2.2.1 (by decide) ⟨1, "deadbeef", "https://a.example", "bob"⟩
      (by decide) rfl,
   congrArg Outcome.resp ((resolve_spec emptyDisk none "0badcafe").2.2.2 emptyDisk
      ⟨⟨some ⟨[], 0⟩, some ⟨[], 0⟩⟩, fun _ => none⟩
      [(7, .postRegister "alice" "pw1"), (7, .postLogin "alice" "pw1"),
        (7, .postShorten "https://example.com"
          ⟨[222, 173, 190, 239, 1, 2, 3, 4, 5, 6, 7, 8, 9, 10, 11, 12], rfl⟩ "http://h")]
      rfl (by decide))⟩

/-- C8 (listing): with the `urls` table in place, `GET /` of a logged-in user
renders exactly the (short id, original URL) pairs of the rows owned by that
user and none of another user; after two shortens of one user that both
answered with a rendered short URL, starting without links of that user, the
listing holds the two created pairs and nothing else. -/
theorem list_for_user (db : DB) (user : String) :
    (∀ t, db.urls = some t →
      ∃ l, getIndex db (some user) =
          ⟨.render "index" [("User", .text user), ("URLs", .links l)], db, some user⟩ ∧
        ∀ p, p ∈ l ↔ ∃ r ∈ db.urlRows, r.username = user ∧ p = (r.short_id, r.original_url)) ∧
    (∀ (url1 url2 base1 base2 tpl1 tpl2 : String) (rnd1 rnd2 : UUID)
        (d1 d2 : List (String × Value)),
      (∀ r ∈ db.urlRows, r.username ≠ user) →
      (postShorten db (some user) url1 rnd1 base1).resp = .render tpl1 d1 →
      (postShorten (postShorten db (some user) url1 rnd1 base1).db (some user) url2 rnd2
        base2).resp = .render tpl2 d2 →
      ∃ s1 s2 l, newShortID rnd1 = some s1 ∧ newShortID rnd2 = some s2 ∧
        getIndex (postShorten (postShorten db (some user) url1 rnd1 base1).db (some user)
            url2 rnd2 base2).db (some user) =
          ⟨.render "index" [("User", .text user), ("URLs", .links l)],
            (postShorten (postShorten db (some user) url1 rnd1 base1).db (some user)
              url2 rnd2 base2).db, some user⟩ ∧
        ∀ p, p ∈ l ↔ p = (s1, url1) ∨ p = (s2, url2)) := by
  have hlist : ∀ (db : DB) t, db.urls = some t →
      ∃ l, getIndex db (some user) =
          ⟨.render "index" [("User", .text user), ("URLs", .links l)], db, some user⟩ ∧
        ∀ p, p ∈ l ↔ ∃ r ∈ db.urlRows, r.username = user ∧ p = (r.short_id, r.original_url) := by
    intro db t ht
    refine ⟨(t.rows.filter (fun r => r.username == user)).map
      (fun r => (r.short_id, r.original_url)), ?_, ?_⟩
    · simp [getIndex, queryUrlsOf, ht]
    · intro p
      simp only [DB.urlRows, ht, List.mem_map, List.mem_filter, beq_iff_eq]
      constructor
      · rintro ⟨r, ⟨hr, hu⟩, rfl⟩
        exact ⟨r, hr, hu, rfl⟩
      · rintro ⟨r, hr, hu, rfl⟩
        exact ⟨r, ⟨hr, hu⟩, rfl⟩
  refine ⟨hlist db, ?_⟩
  intro url1 url2 base1 base2 tpl1 tpl2 rnd1 rnd2 d1 d2 hnone h1 h2
  obtain ⟨s1, t1, hs1, ht1, _, hdb1⟩ := postShorten_ok h1
  obtain ⟨s2, t2, hs2, ht2, _, hdb2⟩ := postShorten_ok h2
  have ht2eq : t2 = ⟨t1.rows ++
      [⟨nextRowid (t1.rows.map (fun r => r.id)) t1.seq, s1, url1, user⟩],
      nextRowid (t1.rows.map (fun r => r.id)) t1.seq⟩ := by
    rw [hdb1] at ht2
    exact (Option.some.inj ht2).symm
  have hurls2 : (postShorten (postShorten db (some user) url1 rnd1 base1).db (some user)
      url2 rnd2 base2).db.urls = some ⟨t2.rows ++
        [⟨nextRowid (t2.rows.map (fun r => r.id)) t2.seq, s2, url2, user⟩],
        nextRowid (t2.rows.map (fun r => r.id)) t2.seq⟩ := by
    rw [hdb2]
  obtain ⟨l, hl, hmem⟩ := hlist _ _ hurls2
  refine ⟨s1, s2, l, hs1, hs2, hl, ?_⟩
  intro p
  rw [hmem]
  simp only [DB.urlRows, hurls2, ht2eq, List.mem_append, List.mem_singleton]
  have hnone1 : ∀ r ∈ t1.rows, r.username ≠ user := by
    intro r hr
    exact hnone r (by simpa [DB.urlRows, ht1] using hr)
  constructor
  · rintro ⟨r, (hr | hr) | hr, hu, rfl⟩
    · exact absurd hu (hnone1 r hr)
    · left; rw [hr]
    · right; rw [hr]
  · rintro (rfl | rfl)
    · exact ⟨_, Or.inl (Or.inr rfl), rfl, rfl⟩
    · exact ⟨_, Or.inr rfl, rfl, rfl⟩

theorem list_for_user_witness :
    (∃ l, getIndex ⟨some ⟨[], 0⟩, some ⟨[⟨1, "deadbeef", "https://a.example", "bob"⟩,
          ⟨2, "0badcafe", "https://b.example", "alice"⟩], 2⟩⟩ (some "bob") =
        ⟨.render "index" [("User", .text "bob"), ("URLs", .links l)],
          ⟨some ⟨[], 0⟩, some ⟨[⟨1, "deadbeef", "https://a.example", "bob"⟩,
            ⟨2, "0badcafe", "https://b.example", "alice"⟩], 2⟩⟩, some "bob"⟩ ∧
      ∀ p, p ∈ l ↔ ∃ r ∈ (⟨some ⟨[], 0⟩, some ⟨[⟨1, "deadbeef", "https://a.example", "bob"⟩,
          ⟨2, "0badcafe", "https://b.example", "alice"⟩], 2⟩⟩ : DB).urlRows,
        r.username = "bob" ∧ p = (r.short_id, r.original_url)) ∧
    (∃ s1 s2 l,
      newShortID ⟨[222, 173, 190, 239, 1, 2, 3, 4, 5, 6, 7, 8, 9, 10, 11, 12], rfl⟩ = some s1 ∧
      newShortID ⟨[11, 173, 202, 254, 1, 2, 3, 4, 5, 6, 7, 8, 9, 10, 11, 12], rfl⟩ = some s2 ∧
      getIndex (postShorten (postShorten ⟨some ⟨[], 0⟩, some ⟨[], 0⟩⟩ (some "alice")
          "https://a.example"
          ⟨[222, 173, 190, 239, 1, 2, 3, 4, 5, 6, 7, 8, 9, 10, 11, 12], rfl⟩ "http://h").db
          (some "alice") "https://b.example"
          ⟨[11, 173, 202, 254, 1, 2, 3, 4, 5, 6, 7, 8, 9, 10, 11, 12], rfl⟩ "http://h").db
          (some "alice") =
        ⟨.render "index" [("User", .text "alice"), ("URLs", .links l)],
          (postShorten (postShorten ⟨some ⟨[], 0⟩, some ⟨[], 0⟩⟩ (some "alice")
            "https://a.example"
            ⟨[222, 173, 190, 239, 1, 2, 3, 4, 5, 6, 7, 8, 9, 10, 11, 12], rfl⟩ "http://h").db
            (some "alice") "https://b.example"
            ⟨[11, 173, 202, 254, 1, 2, 3, 4, 5, 6, 7, 8, 9, 10, 11, 12], rfl⟩ "http://h").db,
          some "alice"⟩ ∧
      ∀ p, p ∈ l ↔ p = (s1, "https://a.example") ∨ p = (s2, "https://b.example")) :=
  ⟨(list_for_user ⟨some ⟨[], 0⟩, some ⟨[⟨1, "deadbeef", "https://a.example", "bob"⟩,
      ⟨2, "0badcafe", "https://b.example", "alice"⟩], 2⟩⟩ "bob").1 _ rfl,
   (list_for_user ⟨some ⟨[], 0⟩, some ⟨[], 0⟩⟩ "alice").2
      "https://a.example" "https://b.example" "http://h" "http://h" "index" "index"
      ⟨[222, 173, 190, 239, 1, 2, 3, 4, 5, 6, 7, 8, 9, 10, 11, 12], rfl⟩
      ⟨[11, 173, 202, 254, 1, 2, 3, 4, 5, 6, 7, 8, 9, 10, 11, 12], rfl⟩
      [("ShortURL", .text "http://h/deadbeef"), ("User", .text "alice")]
      [("ShortURL", .text "http://h/0badcafe"), ("User", .text "alice")]
      (by decide) (by decide) (by decide)⟩

/-- C9 (startup): `initDB` succeeds on every prior database and leaves `urls`
present and empty, so `GET /:id` is answered 404 for every id, those of links
stored before the restart included; `users` is created empty when it was
absent and otherwise kept exactly as it was. -/
theorem initDB_spec (prior : DB) :
    ∃ db, initDB prior = .ok db ∧ db.urls = some ⟨[], 0⟩ ∧
      (∀ (sess : Session) (id : String),
        getId db sess id = ⟨.sendString 404 "URL not found", db, sess⟩) ∧
      (prior.users = none → db.users = some ⟨[], 0⟩) ∧
      (∀ t, prior.users = some t → db.users = some t) := by
  refine ⟨_, initDB_eq prior, rfl, ?_, ?_, ?_⟩
  · intro sess id
    apply getId_notFound
    intro r hr
    simp [DB.urlRows] at hr
  · intro h
    simp [h]
  · intro t h
    simp [h]

theorem initDB_spec_witness :
    ∃ db, initDB ⟨some ⟨[⟨1, "alice", "pw1"⟩], 1⟩,
          some ⟨[⟨1, "deadbeef", "https://a.example", "alice"⟩], 1⟩⟩ = .ok db ∧
      db.urls = some ⟨[], 0⟩ ∧
      getId db none "deadbeef" = ⟨.sendString 404 "URL not found", db, none⟩ ∧
      db.users = some ⟨[⟨1, "alice", "pw1"⟩], 1⟩ := by
  obtain ⟨db, h1, h2, h3, _, h5⟩ := initDB_spec ⟨some ⟨[⟨1, "alice", "pw1"⟩], 1⟩,
    some ⟨[⟨1, "deadbeef", "https://a.example", "alice"⟩], 1⟩⟩
  exact ⟨db, h1, h2, h3 none "deadbeef", h5 _ rfl⟩

/-- C10 (uniqueness invariant): in every state the application reaches from
its first start, through any requests of any clients and any restarts, no two
`users` rows share a username and no two `urls` rows share a short id; hence
rows with one short id carry one original URL, the one `GET /:id` redirects
to. -/
theorem reachable_unique (a : App) (h : Reachable a) :
    a.db.UsernamesUnique ∧ a.db.ShortIdsUnique ∧
    (∀ r1 ∈ a.db.urlRows, ∀ r2 ∈ a.db.urlRows,
      r1.short_id = r2.short_id → r1.original_url = r2.original_url) ∧
    (∀ (sess : Session), ∀ r ∈ a.db.urlRows,
      getId a.db sess r.short_id = ⟨.redirect r.original_url, a.db, sess⟩) := by
  have hinv : a.db.UsernamesUnique ∧ a.db.ShortIdsUnique := by
    induction h with
    | start a hboot =>
      rw [boot_eq] at hboot
      have ha := (Option.some.inj hboot).symm
      subst ha
      simp [DB.UsernamesUnique, DB.ShortIdsUnique, DB.userRows, DB.urlRows, emptyDisk]
    | restart a b _ hboot ih =>
      rw [boot_eq] at hboot
      have hb := (Option.some.inj hboot).symm
      subst hb
      refine ⟨?_, by simp [DB.ShortIdsUnique, DB.urlRows]⟩
      have := ih.1
      cases hu : a.db.users with
      | none => simp [DB.UsernamesUnique, DB.userRows]
      | some t =>
        simp only [DB.UsernamesUnique, DB.userRows, hu] at this
        simpa [DB.UsernamesUnique, DB.userRows] using this
    | step a client req _ ih => exact handle_unique req a.db (a.sessions client) ih
  refine ⟨hinv.1, hinv.2, ?_, ?_⟩
  · intro r1 h1 r2 h2 hs
    rw [eq_of_nodup_map (fun r : UrlRow => r.short_id) a.db.urlRows hinv.2 r1 h1 r2 h2 hs]
  · intro sess r hr
    simp [getId, queryOriginalUrl_unique hinv.2 hr rfl]

theorem reachable_unique_witness :
    Reachable (((⟨⟨some ⟨[], 0⟩, some ⟨[], 0⟩⟩, fun _ => none⟩ : App).step 7
      (.postRegister "alice" "pw1")).step 7 (.postRegister "alice" "pw2")) ∧
    (((⟨⟨some ⟨[], 0⟩, some ⟨[], 0⟩⟩, fun _ => none⟩ : App).step 7
      (.postRegister "alice" "pw1")).step 7 (.postRegister "alice" "pw2")).db =
      ⟨some ⟨[⟨1, "alice", "pw1"⟩], 1⟩, some ⟨[], 0⟩⟩ ∧
    (((⟨⟨some ⟨[], 0⟩, some ⟨[], 0⟩⟩, fun _ => none⟩ : App).step 7
      (.postRegister "alice" "pw1")).step 7
      (.postRegister "alice" "pw2")).db.UsernamesUnique ∧
    (((⟨⟨some ⟨[], 0⟩, some ⟨[], 0⟩⟩, fun _ => none⟩ : App).step 7
      (.postRegister "alice" "pw1")).step 7
      (.postRegister "alice" "pw2")).db.ShortIdsUnique :=
  have hr : Reachable (((⟨⟨some ⟨[], 0⟩, some ⟨[], 0⟩⟩, fun _ => none⟩ : App).step 7
      (.postRegister "alice" "pw1")).step 7 (.postRegister "alice" "pw2")) :=
    Reachable.step _ 7 _ (Reachable.step _ 7 _ (Reachable.start _ rfl))
  ⟨hr, by decide, (reachable_unique _ hr).1, (reachable_unique _ hr).2.1⟩

end UrlShortener
